import Mathlib

/-! # Shallow embedding of the MCP example server's user record store

This development embeds `src/server.ts`: the `createUser` helper (append
with id = length + 1, persisted through a module-cached JSON import and a
full-file rewrite), the `create-user` and `create-random-user` tool
handlers, and the `Users` / `user-details` resource handlers.

JavaScript values are modelled by `JsValue`; JavaScript numbers by
`JsNum`, where `JsNum.val m k` denotes the decimal value `m / 10^k`
(`k = 0` for the integers this program manipulates; `===` comparison of
numbers is the semantic `jsNumEq`, not constructor equality).  `JSON.parse`,
`JSON.stringify`, `Number(...)` coercion, property access, and
`Array.prototype.find` are modelled below, faithful to their JavaScript
behaviour on the values this program can produce. -/

/-- JavaScript numbers as this program exercises them: `NaN`, signed
infinities, and finite decimal values `m / 10^k`. -/
inductive JsNum where
  | nan
  | inf (neg : Bool)
  | val (m : ℤ) (k : ℕ)
deriving DecidableEq

/-- Semantic equality of JavaScript numbers (the number case of `===`):
`NaN` equals nothing, finite values compare by the rational they denote. -/
def jsNumEq : JsNum → JsNum → Bool
  | .val m k, .val m' k' => m * (10 : ℤ) ^ k' = m' * (10 : ℤ) ^ k
  | .inf b, .inf b' => b = b'
  | _, _ => false

/-- JSON-representable JavaScript values plus `undefined` (produced by a
missed `Array.prototype.find` and by absent-property access). -/
inductive JsValue where
  | null
  | undefined
  | boolean (b : Bool)
  | number (n : JsNum)
  | str (s : String)
  | arr (elems : List JsValue)
  | obj (fields : List (String × JsValue))

/-- The runtime exceptions these handlers can hit: `TypeError` (property
access on `null`/`undefined`, calling a missing method) and `SyntaxError`
(failed JSON parse / failed JSON module import). -/
inductive JsError where
  | typeError
  | syntaxError
deriving DecidableEq

/-- JSON whitespace (the four characters `JSON.parse` skips). -/
def jsonWsChar (c : Char) : Bool :=
  c = ' ' || c = '\t' || c = '\n' || c = '\r'

/-- Whitespace trimmed by `String.prototype.trim` and `Number(...)`
(ASCII whitespace; exotic Unicode space classes are out of scope). -/
def jsWsChar (c : Char) : Bool :=
  c = ' ' || c = '\t' || c = '\n' || c = '\r' || c = '\x0b' || c = '\x0c'

/-- Trim `jsWsChar` whitespace from both ends of a character list. -/
def chTrim (cs : List Char) : List Char :=
  ((cs.dropWhile jsWsChar).reverse.dropWhile jsWsChar).reverse

/-- Remove `p` from the front of `cs` when it is a prefix, else leave
`cs` unchanged (the effect of `.replace(/^p/, "")` for a literal `p`). -/
def chopLead (p cs : List Char) : List Char :=
  if p.isPrefixOf cs then cs.drop p.length else cs

/-- Remove `p` from the end of `cs` when it is a suffix, else leave `cs`
unchanged (the effect of `.replace(/p$/, "")` for a literal `p`). -/
def chopTail (p cs : List Char) : List Char :=
  (chopLead p.reverse cs.reverse).reverse

/-- `text.trim()`. -/
def strTrim (s : String) : String :=
  ⟨chTrim s.data⟩

/-- The code-fence stripping in the `create-random-user` handler:
`text.trim().replace(/^```json/, "").replace(/```$/, "").trim()`. -/
def stripFences (s : String) : String :=
  ⟨chTrim (chopTail "```".data (chopLead "```json".data (chTrim s.data)))⟩

/-- JavaScript object-property assignment on a field list: overwrite the
value in place when the key exists, else add the field at the end. -/
def objSet (fs : List (String × JsValue)) (k : String) (v : JsValue) :
    List (String × JsValue) :=
  if fs.any (fun p => p.1 == k) then
    fs.map (fun p => if p.1 == k then (k, v) else p)
  else fs ++ [(k, v)]

/-- Property lookup on an object's field list (`undefined` when absent).
All objects built here have unique keys (`objSet` maintains this). -/
def objLookup (fs : List (String × JsValue)) (k : String) : JsValue :=
  match fs.find? (fun p => p.1 == k) with
  | some p => p.2
  | none => .undefined

/-- Numeric value of a decimal digit. -/
def digitVal (c : Char) : ℕ := c.toNat - 48

/-- Value of a list of decimal digits. -/
def digitsToNat (ds : List Char) : ℕ :=
  ds.foldl (fun a c => a * 10 + digitVal c) 0

/-- Canonical array-index strings (`"0"`, `"1"`, ..., no leading zeros). -/
def strIndex (s : String) : Option ℕ :=
  match s.data with
  | [] => none
  | ['0'] => some 0
  | c :: cs =>
    if c != '0' && (c :: cs).all Char.isDigit then some (digitsToNat (c :: cs))
    else none

/-- The own enumerable key/value pairs contributed by `...v` in an object
literal: an object spreads its fields, a string or array spreads its
indexed elements, primitives spread nothing. -/
def spreadPairs : JsValue → List (String × JsValue)
  | .obj fs => fs
  | .str s => s.data.enum.map (fun p => (toString p.1, .str ⟨[p.2]⟩))
  | .arr xs => xs.enum.map (fun p => (toString p.1, p.2))
  | _ => []

/-- The record literal `{ id, ...params }` built by `createUser`. -/
def mkRecord (idv : JsValue) (params : JsValue) : JsValue :=
  .obj ((spreadPairs params).foldl (fun fs kv => objSet fs kv.1 kv.2) [("id", idv)])

/-! ## JSON.parse -/

/-- Value of a hexadecimal digit, `none` for other characters. -/
def hexDigVal (c : Char) : Option ℕ :=
  if c.isDigit then some (c.toNat - 48)
  else if 'a' ≤ c && c ≤ 'f' then some (c.toNat - 87)
  else if 'A' ≤ c && c ≤ 'F' then some (c.toNat - 55)
  else none

/-- The two-character JSON string escapes. -/
def escCode : Char → Option Char
  | '"' => some '"'
  | '\\' => some '\\'
  | '/' => some '/'
  | 'b' => some '\x08'
  | 'f' => some '\x0c'
  | 'n' => some '\n'
  | 'r' => some '\r'
  | 't' => some '\t'
  | _ => none

/-- Parse the body of a JSON string after the opening quote, returning the
decoded characters and the remainder after the closing quote.  Raw control
characters are rejected, as `JSON.parse` does. -/
def parseStrChars : List Char → Option (List Char × List Char)
  | [] => none
  | '"' :: rest => some ([], rest)
  | '\\' :: 'u' :: h1 :: h2 :: h3 :: h4 :: rest =>
    match hexDigVal h1, hexDigVal h2, hexDigVal h3, hexDigVal h4 with
    | some a, some b, some c, some d =>
      (parseStrChars rest).map
        (fun p => (Char.ofNat (((a * 16 + b) * 16 + c) * 16 + d) :: p.1, p.2))
    | _, _, _, _ => none
  | '\\' :: c :: rest =>
    match escCode c with
    | some c' => (parseStrChars rest).map (fun p => (c' :: p.1, p.2))
    | none => none
  | c :: rest =>
    if c.toNat < 32 then none
    else (parseStrChars rest).map (fun p => (c :: p.1, p.2))

/-- The number denoted by sign, integer digits, fraction digits and a
decimal exponent, as a scaled decimal. -/
def decValue (neg : Bool) (intDs fracDs : List Char) (e : ℤ) : JsNum :=
  let mNat : ℕ := digitsToNat intDs * 10 ^ fracDs.length + digitsToNat fracDs
  let m : ℤ := if neg then -(mNat : ℤ) else (mNat : ℤ)
  let k : ℤ := (fracDs.length : ℤ) - e
  if k ≤ 0 then .val (m * (10 : ℤ) ^ (-k).toNat) 0 else .val m k.toNat

/-- Parse an optional JSON fraction part: fraction digits (empty when no
`'.'` is present) and the remainder; `'.'` without digits is an error. -/
def parseFrac : List Char → Option (List Char × List Char)
  | '.' :: r =>
    match r.takeWhile Char.isDigit with
    | [] => none
    | ds => some (ds, r.dropWhile Char.isDigit)
  | cs => some (([] : List Char), cs)

/-- Parse an optional JSON exponent part, returning the (signed) exponent
and the remainder. -/
def parseExpPart : List Char → Option (ℤ × List Char)
  | c :: r =>
    if c = 'e' || c = 'E' then
      let (eneg, r₁) :=
        match r with
        | '+' :: t => (false, t)
        | '-' :: t => (true, t)
        | t => (false, t)
      match r₁.takeWhile Char.isDigit with
      | [] => none
      | ds =>
        some ((if eneg then -(digitsToNat ds : ℤ) else (digitsToNat ds : ℤ)),
              r₁.dropWhile Char.isDigit)
    else some (0, c :: r)
  | [] => some (0, ([] : List Char))

/-- Parse a JSON number literal (grammar of `JSON.parse`: optional minus,
`0` or a nonzero-led digit run, optional fraction, optional exponent). -/
def parseNumber (cs : List Char) : Option (JsValue × List Char) :=
  let (neg, cs₀) := match cs with | '-' :: r => (true, r) | r => (false, r)
  match cs₀ with
  | '0' :: r => do
    let (fds, r₁) ← parseFrac r
    let (e, r₂) ← parseExpPart r₁
    pure (.number (decValue neg ['0'] fds e), r₂)
  | c :: r =>
    if c.isDigit then do
      let ds := (c :: r).takeWhile Char.isDigit
      let r₀ := (c :: r).dropWhile Char.isDigit
      let (fds, r₁) ← parseFrac r₀
      let (e, r₂) ← parseExpPart r₁
      pure (.number (decValue neg ds fds e), r₂)
    else none
  | [] => none

/-- Skip JSON whitespace. -/
def skipJsonWs (cs : List Char) : List Char :=
  cs.dropWhile jsonWsChar

mutual

/-- Fuel-indexed recursive-descent parser for a JSON value, following the
`JSON.parse` grammar; returns the value and the unconsumed remainder. -/
def parseVal : ℕ → List Char → Option (JsValue × List Char)
  | 0, _ => none
  | fuel + 1, cs =>
    match skipJsonWs cs with
    | [] => none
    | c :: rest =>
      if c = 'n' then
        if "ull".data.isPrefixOf rest then some (.null, rest.drop 3) else none
      else if c = 't' then
        if "rue".data.isPrefixOf rest then some (.boolean true, rest.drop 3) else none
      else if c = 'f' then
        if "alse".data.isPrefixOf rest then some (.boolean false, rest.drop 4) else none
      else if c = '"' then
        (parseStrChars rest).map (fun p => (.str ⟨p.1⟩, p.2))
      else if c = '[' then
        match skipJsonWs rest with
        | ']' :: r => some (.arr [], r)
        | _ => (parseElems fuel rest).map (fun p => (.arr p.1, p.2))
      else if c = '\x7b' then
        match skipJsonWs rest with
        | '\x7d' :: r => some (.obj [], r)
        | _ =>
          (parseMembers fuel rest).map
            (fun p => (.obj (p.1.foldl (fun acc kv => objSet acc kv.1 kv.2) []), p.2))
      else parseNumber (c :: rest)

/-- Parse the comma-separated elements of a nonempty JSON array up to and
including the closing `']'`. -/
def parseElems : ℕ → List Char → Option (List JsValue × List Char)
  | 0, _ => none
  | fuel + 1, cs => do
    let (v, r) ← parseVal fuel cs
    match skipJsonWs r with
    | ',' :: r₂ => do
      let (vs, r₃) ← parseElems fuel r₂
      pure (v :: vs, r₃)
    | ']' :: r₂ => pure ([v], r₂)
    | _ => none

/-- Parse the comma-separated members of a nonempty JSON object up to and
including the closing `'}'`, in source order. -/
def parseMembers : ℕ → List Char → Option (List (String × JsValue) × List Char)
  | 0, _ => none
  | fuel + 1, cs =>
    match skipJsonWs cs with
    | '"' :: r => do
      let (kcs, r₁) ← parseStrChars r
      match skipJsonWs r₁ with
      | ':' :: r₂ => do
        let (v, r₃) ← parseVal fuel r₂
        match skipJsonWs r₃ with
        | ',' :: r₄ => do
          let (fs, r₅) ← parseMembers fuel r₄
          pure ((⟨kcs⟩, v) :: fs, r₅)
        | '\x7d' :: r₄ => pure ([(⟨kcs⟩, v)], r₄)
        | _ => none
      | _ => none
    | _ => none

end

/-- `JSON.parse`: parse a complete JSON text (surrounding whitespace
allowed, nothing else may follow the value); `none` models the thrown
`SyntaxError`. -/
def jsonParse (s : String) : Option JsValue :=
  match parseVal (3 * s.data.length + 3) s.data with
  | some (v, rest) => if skipJsonWs rest = [] then some v else none
  | none => none

/-! ## JSON.stringify -/

/-- Hexadecimal digit character. -/
def hexDigit (n : ℕ) : Char :=
  if n < 10 then Char.ofNat (48 + n) else Char.ofNat (87 + (n - 10))

/-- `JSON.stringify` escaping of a single string character. -/
def escChar (c : Char) : List Char :=
  if c = '"' then ['\\', '"']
  else if c = '\\' then ['\\', '\\']
  else if c = '\x08' then ['\\', 'b']
  else if c = '\x0c' then ['\\', 'f']
  else if c = '\n' then ['\\', 'n']
  else if c = '\r' then ['\\', 'r']
  else if c = '\t' then ['\\', 't']
  else if c.toNat < 32 then
    ['\\', 'u', '0', '0', hexDigit (c.toNat / 16), hexDigit (c.toNat % 16)]
  else [c]

/-- A JSON string literal for `s`, quotes included. -/
def escStringJson (s : String) : String :=
  ⟨'"' :: s.data.foldr (fun c acc => escChar c ++ acc) ['"']⟩

/-- Decimal rendering of a JavaScript number.  The program only renders
integers (record ids); for non-integral scaled decimals the digits are
rendered exactly from the scaled representation. -/
def numToString (n : JsNum) : String :=
  match n with
  | .nan => "NaN"
  | .inf b => if b then "-Infinity" else "Infinity"
  | .val m 0 => toString m
  | .val m (k + 1) => toString m ++ "e-" ++ toString (k + 1)

/-- How `JSON.stringify` renders a number: finite values by their decimal
form, `NaN` and the infinities as `null`. -/
def numJsonString (n : JsNum) : String :=
  match n with
  | .nan => "null"
  | .inf _ => "null"
  | .val m k => numToString (.val m k)

/-- Join strings with a separator. -/
def joinSep (sep : String) : List String → String
  | [] => ""
  | [x] => x
  | x :: xs => x ++ sep ++ joinSep sep xs

/-- `n` spaces. -/
def spacesN (n : ℕ) : String :=
  ⟨List.replicate n ' '⟩

mutual

/-- `JSON.stringify` of a value: `p` selects the pretty (indent 2) form
used for the backing file, `ind` is the current indentation; `none`
models the `undefined` result on `undefined` input. -/
def strfyV (p : Bool) (ind : ℕ) : JsValue → Option String
  | .undefined => none
  | .null => some "null"
  | .boolean b => some (cond b "true" "false")
  | .number n => some (numJsonString n)
  | .str s => some (escStringJson s)
  | .arr xs =>
    match xs with
    | [] => some "[]"
    | _ =>
      if p then
        some ("[\n" ++
          joinSep ",\n" ((strfyList p (ind + 2) xs).map (fun t => spacesN (ind + 2) ++ t)) ++
          "\n" ++ spacesN ind ++ "]")
      else some ("[" ++ joinSep "," (strfyList p ind xs) ++ "]")
  | .obj fs =>
    match strfyFields p (ind + 2) fs with
    | [] => some "\x7b\x7d"
    | ts =>
      if p then
        some ("\x7b\n" ++
          joinSep ",\n" (ts.map (fun t => spacesN (ind + 2) ++ t)) ++
          "\n" ++ spacesN ind ++ "\x7d")
      else some ("\x7b" ++ joinSep "," ts ++ "\x7d")

/-- Stringify array elements; `undefined` elements render as `null`. -/
def strfyList (p : Bool) (ind : ℕ) : List JsValue → List String
  | [] => []
  | x :: xs => ((strfyV p ind x).getD "null") :: strfyList p ind xs

/-- Stringify object members; fields with `undefined` values are omitted. -/
def strfyFields (p : Bool) (ind : ℕ) : List (String × JsValue) → List String
  | [] => []
  | (k, v) :: fs =>
    match strfyV p ind v with
    | none => strfyFields p ind fs
    | some t => (escStringJson k ++ (if p then ": " else ":") ++ t) :: strfyFields p ind fs

end

/-- `JSON.stringify(v)` (compact form, used by the resource handlers). -/
def jsStringify (v : JsValue) : Option String :=
  strfyV false 0 v

/-- `JSON.stringify(v, null, 2)` (the pretty form written to the backing
file; the argument is always an array there, so the result is never
`undefined`). -/
def jsStringifyPretty (v : JsValue) : String :=
  (strfyV true 0 v).getD "undefined"

/-! ## Number(...) coercion (used on the `userId` template parameter) -/

/-- A decimal literal of the JavaScript `Number(string)` grammar:
`digits [. digits] [exp]` or `. digits [exp]` (both digit runs optional
but not both empty), consuming the entire input. -/
def decLit (cs : List Char) : Option JsNum :=
  let intDs := cs.takeWhile Char.isDigit
  let r₀ := cs.dropWhile Char.isDigit
  let hasDot := match r₀ with | '.' :: _ => true | _ => false
  let fracDs := if hasDot then (r₀.drop 1).takeWhile Char.isDigit else []
  let r₁ := if hasDot then (r₀.drop 1).dropWhile Char.isDigit else r₀
  if intDs = [] && fracDs = [] then none
  else
    match r₁ with
    | [] => some (decValue false intDs fracDs 0)
    | c :: r =>
      if c = 'e' || c = 'E' then
        let (eneg, r₂) :=
          match r with
          | '+' :: t => (false, t)
          | '-' :: t => (true, t)
          | t => (false, t)
        if r₂ ≠ [] && r₂.all Char.isDigit then
          some (decValue false intDs fracDs
            (if eneg then -(digitsToNat r₂ : ℤ) else (digitsToNat r₂ : ℤ)))
        else none
      else none

/-- An unsigned radix literal (`0x`/`0o`/`0b` body) over the given digit
alphabet, consuming the entire input. -/
def radixLit (base : ℕ) (dig : Char → Option ℕ) (cs : List Char) : JsNum :=
  if cs ≠ [] && cs.all (fun c => (dig c).isSome) then
    .val ((cs.foldl (fun a c => a * base + (dig c).getD 0) 0 : ℕ) : ℤ) 0
  else .nan

/-- Value of an octal digit. -/
def octDigVal (c : Char) : Option ℕ :=
  if '0' ≤ c && c ≤ '7' then some (c.toNat - 48) else none

/-- Value of a binary digit. -/
def binDigVal (c : Char) : Option ℕ :=
  if c = '0' || c = '1' then some (c.toNat - 48) else none

/-- A signed decimal or `Infinity` string numeric literal. -/
def decSigned (cs : List Char) : JsNum :=
  let (neg, r) :=
    match cs with
    | '-' :: t => (true, t)
    | '+' :: t => (false, t)
    | t => (false, t)
  if r = "Infinity".data then .inf neg
  else
    match decLit r with
    | some (.val m k) => if neg then .val (-m) k else .val m k
    | some n => n
    | none => .nan

/-- JavaScript `Number(string)`: trim, empty means `0`, then a decimal,
`Infinity`, hex, octal or binary literal; anything else is `NaN`. -/
def toNumber (s : String) : JsNum :=
  match chTrim s.data with
  | [] => .val 0 0
  | '0' :: c :: r =>
    if c = 'x' || c = 'X' then radixLit 16 hexDigVal r
    else if c = 'o' || c = 'O' then radixLit 8 octDigVal r
    else if c = 'b' || c = 'B' then radixLit 2 binDigVal r
    else decSigned ('0' :: c :: r)
  | cs => decSigned cs

/-! ## Property access, `find`, string coercion, `+ 1` -/

/-- JavaScript property access `v[k]` restricted to the values here:
throws `TypeError` on `null`/`undefined`, looks fields up on objects,
exposes `length` and indices on arrays and strings, yields `undefined`
on other primitives. -/
def jsGetField : JsValue → String → Except JsError JsValue
  | .null, _ => .error .typeError
  | .undefined, _ => .error .typeError
  | .obj fs, k => .ok (objLookup fs k)
  | .arr xs, k =>
    if k = "length" then .ok (.number (.val (xs.length : ℤ) 0))
    else
      match strIndex k with
      | some i => .ok (xs.getD i .undefined)
      | none => .ok .undefined
  | .str s, k =>
    if k = "length" then .ok (.number (.val (s.length : ℤ) 0))
    else
      match strIndex k with
      | some i =>
        .ok (if i < s.data.length then .str ⟨[s.data.getD i ' ']⟩ else .undefined)
      | none => .ok .undefined
  | _, _ => .ok .undefined

/-- The loop of `Array.prototype.find`: first element on which the
callback yields `true`; `undefined` when none; callback exceptions
propagate. -/
def findLoop (p : JsValue → Except JsError Bool) : List JsValue → Except JsError JsValue
  | [] => .ok .undefined
  | x :: xs =>
    match p x with
    | .error e => .error e
    | .ok true => .ok x
    | .ok false => findLoop p xs

/-- `v.find(p)`: only arrays have the method, every other receiver makes
the call throw a `TypeError`. -/
def jsFindMethod (v : JsValue) (p : JsValue → Except JsError Bool) :
    Except JsError JsValue :=
  match v with
  | .arr xs => findLoop p xs
  | _ => .error .typeError

mutual

/-- JavaScript `String(v)` coercion for the values here. -/
def jsToStr : JsValue → String
  | .null => "null"
  | .undefined => "undefined"
  | .boolean b => cond b "true" "false"
  | .number n => numToString n
  | .str s => s
  | .obj _ => "[object Object]"
  | .arr xs => joinArr xs

/-- `Array.prototype.toString`: elements stringified (empty for `null`
and `undefined`) joined by commas. -/
def joinArr : List JsValue → String
  | [] => ""
  | [x] => (match x with | JsValue.null => "" | JsValue.undefined => "" | v => jsToStr v)
  | x :: xs =>
    (match x with | JsValue.null => "" | JsValue.undefined => "" | v => jsToStr v) ++
      "," ++ joinArr xs

end

/-- JavaScript `v + 1` for the values here: numeric addition after
`ToNumber` on primitives other than strings; string concatenation when a
string is involved. -/
def jsAddOne : JsValue → JsValue
  | .number .nan => .number .nan
  | .number (.inf b) => .number (.inf b)
  | .number (.val m k) => .number (.val (m + (10 : ℤ) ^ k) k)
  | .undefined => .number .nan
  | .null => .number (.val 1 0)
  | .boolean b => .number (.val (cond b 2 1) 0)
  | .str s => .str (s ++ "1")
  | .arr xs => .str (jsToStr (.arr xs) ++ "1")
  | .obj _ => .str "[object Object]1"

/-! ## The record store and the handlers of `server.ts` -/

/-- The shared state the handlers touch: the backing file
`./src/data/users.json` and the module cache of the dynamic
`import("./data/users.json")`.  Node caches the module on first load and
returns the same (mutable) value on every later import of the same
specifier. -/
structure StoreState where
  file : String
  cache : Option JsValue

/-- `await import("./data/users.json", ...)`: return the cached module
value when one exists; otherwise parse the file, cache the parse on
success, and throw `SyntaxError` (leaving the state unchanged) on
malformed content. -/
def importUsers (s : StoreState) : Except JsError JsValue × StoreState :=
  match s.cache with
  | some v => (.ok v, s)
  | none =>
    match jsonParse s.file with
    | some v => (.ok v, ⟨s.file, some v⟩)
    | none => (.error .syntaxError, s)

/-- The `createUser` helper: import the users module, compute
`id = users.length + 1`, `users.push({ id, ...params })` (mutating the
cached array in place), rewrite the backing file with
`JSON.stringify(users, null, 2)`, and return the id.  A non-array users
value makes the `push` call throw a `TypeError`; property access on a
`null`/`undefined` users value throws at `users.length`.  Either way the
failure happens before the write, so the file is untouched on failure. -/
def createUser (s : StoreState) (params : JsValue) :
    Except JsError JsValue × StoreState :=
  match importUsers s with
  | (.error e, s₁) => (.error e, s₁)
  | (.ok users, s₁) =>
    match jsGetField users "length" with
    | .error e => (.error e, s₁)
    | .ok lenv =>
      let idv := jsAddOne lenv
      match users with
      | .arr xs =>
        let newArr := JsValue.arr (xs ++ [mkRecord idv params])
        (.ok idv, ⟨jsStringifyPretty newArr, some newArr⟩)
      | _ => (.error .typeError, s₁)

/-- The validated parameters of the `create-user` tool (the zod schema
admits exactly these four string fields). -/
structure UserFields where
  name : String
  email : String
  address : String
  phone : String

/-- The parameter object the framework passes to the `create-user`
handler after validation. -/
def fieldsObj (f : UserFields) : JsValue :=
  .obj [("name", .str f.name), ("email", .str f.email),
        ("address", .str f.address), ("phone", .str f.phone)]

/-- A tool handler's response envelope: a single text content block. -/
structure ToolResponse where
  text : String
deriving DecidableEq

/-- The `create-user` tool handler: `try { createUser } catch` mapped to
the success and failure text envelopes. -/
def createUserTool (f : UserFields) (s : StoreState) : ToolResponse × StoreState :=
  match createUser s (fieldsObj f) with
  | (.ok idv, s') => (⟨"User " ++ jsToStr idv ++ " created successfully"⟩, s')
  | (.error _, s') => (⟨"Failed to save user"⟩, s')

/-- The sampling collaborator's reply to `create-random-user`: textual
content or anything else (a non-text content type). -/
inductive SamplingContent where
  | text (s : String)
  | nonText

/-- The `create-random-user` tool handler: non-text replies fail early;
otherwise the text is fence-stripped and `JSON.parse`d, the parsed value
is passed to `createUser` with no shape validation, and the surrounding
`try/catch` maps any parse or store exception to the failure envelope. -/
def createRandomUserTool (res : SamplingContent) (s : StoreState) :
    ToolResponse × StoreState :=
  match res with
  | .nonText => (⟨"Failed to generate user data"⟩, s)
  | .text t =>
    match jsonParse (stripFences t) with
    | none => (⟨"Failed to generate user data"⟩, s)
    | some v =>
      match createUser s v with
      | (.ok idv, s') => (⟨"User " ++ jsToStr idv ++ " created successfully"⟩, s')
      | (.error _, s') => (⟨"Failed to generate user data"⟩, s')

/-- A resource handler's content block: the request uri and the `text`
field, `none` modelling a JavaScript `undefined` text value. -/
structure ResourceContent where
  uri : String
  text : Option String
deriving DecidableEq

/-- The `Users` resource handler (`user://all`): import the users module
and serve `JSON.stringify(users)`.  There is no `try/catch`: an import
failure propagates out of the handler. -/
def usersResourceHandler (uri : String) (s : StoreState) :
    Except JsError ResourceContent × StoreState :=
  match importUsers s with
  | (.error e, s') => (.error e, s')
  | (.ok users, s') => (.ok ⟨uri, jsStringify users⟩, s')

/-- `v === n` where the right operand is known to be a number (the shape
of the comparison `u.id === Number(userId)`): strict equality is false
across types, and compares numbers semantically. -/
def jsEqToNumber (v : JsValue) (n : JsNum) : Bool :=
  match v with
  | .number m => jsNumEq m n
  | _ => false

/-- The `user-details` resource handler (`users://{userId}/details`):
load the users module, `users.find(u => u.id === Number(userId))`, then
the (dead) `user === null` check and `JSON.stringify` of the find
result.  There is no `try/catch`: load and lookup failures propagate. -/
def userDetailsHandler (uri userId : String) (s : StoreState) :
    Except JsError ResourceContent × StoreState :=
  match importUsers s with
  | (.error e, s') => (.error e, s')
  | (.ok users, s') =>
    match jsFindMethod users
        (fun u => (jsGetField u "id").map (fun idv => jsEqToNumber idv (toNumber userId))) with
    | .error e => (.error e, s')
    | .ok user =>
      match user with
      | .null => (.ok ⟨uri, jsStringify (.obj [("error", .str "User not found")])⟩, s')
      | _ => (.ok ⟨uri, jsStringify user⟩, s')

/-- The store before any user exists: an empty JSON array on disk,
nothing imported yet. -/
def emptyStore : StoreState :=
  ⟨"[]", none⟩

/-- A sequence of `createUser` calls run to completion one after the
other (each call finishes before the next starts). -/
def seqAppend (s : StoreState) : List JsValue → List (Except JsError JsValue) × StoreState
  | [] => ([], s)
  | p :: ps =>
    let (r, s') := createUser s p
    let (rs, s'') := seqAppend s' ps
    (r :: rs, s'')

/-! ## Helper lemmas -/

theorem importUsers_cached (file : String) (v : JsValue) :
    importUsers ⟨file, some v⟩ = (.ok v, ⟨file, some v⟩) := rfl

theorem importUsers_fresh (s : StoreState) (v : JsValue)
    (h0 : s.cache = none) (h1 : jsonParse s.file = some v) :
    importUsers s = (.ok v, ⟨s.file, some v⟩) := by
  simp [importUsers, h0, h1]

theorem importUsers_corrupt (s : StoreState)
    (h0 : s.cache = none) (h1 : jsonParse s.file = none) :
    importUsers s = (.error .syntaxError, s) := by
  simp [importUsers, h0, h1]

theorem createUser_of_import (s s₁ : StoreState) (p : JsValue) (xs : List JsValue)
    (h : importUsers s = (.ok (.arr xs), s₁)) :
    createUser s p =
      (.ok (.number (.val ((xs.length : ℤ) + 1) 0)),
       ⟨jsStringifyPretty (.arr (xs ++ [mkRecord (.number (.val ((xs.length : ℤ) + 1) 0)) p])),
        some (.arr (xs ++ [mkRecord (.number (.val ((xs.length : ℤ) + 1) 0)) p]))⟩) := by
  simp [createUser, h, jsGetField, jsAddOne]

theorem createUser_cached (file : String) (xs : List JsValue) (p : JsValue) :
    createUser ⟨file, some (.arr xs)⟩ p =
      (.ok (.number (.val ((xs.length : ℤ) + 1) 0)),
       ⟨jsStringifyPretty (.arr (xs ++ [mkRecord (.number (.val ((xs.length : ℤ) + 1) 0)) p])),
        some (.arr (xs ++ [mkRecord (.number (.val ((xs.length : ℤ) + 1) 0)) p]))⟩) :=
  createUser_of_import _ _ _ _ (importUsers_cached file (.arr xs))

theorem seqAppend_cached_ids (ps : List JsValue) :
    ∀ (file : String) (xs : List JsValue),
      (seqAppend ⟨file, some (.arr xs)⟩ ps).1 =
        (List.range ps.length).map
          (fun i => .ok (.number (.val ((xs.length : ℤ) + (i : ℤ) + 1) 0))) := by
  induction ps with
  | nil => intro file xs; simp [seqAppend]
  | cons p ps ih =>
    intro file xs
    simp only [seqAppend, createUser_cached]
    rw [ih]
    rw [List.length_cons, List.range_succ_eq_map, List.map_cons, List.map_map]
    congr 1
    refine List.map_congr_left (fun i _ => ?_)
    simp only [Function.comp_apply, List.length_append, List.length_cons, List.length_nil]
    congr 3
    push_cast
    ring

theorem seqAppend_empty_ids (ps : List JsValue) :
    (seqAppend emptyStore ps).1 =
      (List.range ps.length).map (fun i => .ok (.number (.val ((i : ℤ) + 1) 0))) := by
  cases ps with
  | nil => rfl
  | cons p ps =>
    have h := createUser_of_import emptyStore ⟨"[]", some (.arr [])⟩ p [] rfl
    simp only [seqAppend, h]
    rw [seqAppend_cached_ids]
    rw [List.length_cons, List.range_succ_eq_map, List.map_cons, List.map_map]
    congr 1
    refine List.map_congr_left (fun i _ => ?_)
    simp only [Function.comp_apply, List.nil_append, List.length_cons, List.length_nil]
    congr 3
    push_cast
    ring

/-! ## The claims -/

/-- C1: for every store state whose loaded users value is an array of `n`
records, `createUser` returns id `n + 1`; over any sequence of sequential
appends of validated field sets starting from the empty store, the
returned ids are `1, 2, ..., N` — strictly increasing and therefore
unique across all records. -/
theorem claim_C1_append_ids :
    (∀ (s s₁ : StoreState) (p : JsValue) (xs : List JsValue),
        importUsers s = (.ok (.arr xs), s₁) →
        (createUser s p).1 = .ok (.number (.val ((xs.length : ℤ) + 1) 0))) ∧
    (∀ fs : List UserFields,
        (seqAppend emptyStore (fs.map fieldsObj)).1 =
          (List.range fs.length).map (fun i => .ok (.number (.val ((i : ℤ) + 1) 0)))) ∧
    (∀ fs : List UserFields, ((seqAppend emptyStore (fs.map fieldsObj)).1).Nodup) := by
  refine ⟨?_, ?_, ?_⟩
  · intro s s₁ p xs h
    rw [createUser_of_import s s₁ p xs h]
  · intro fs
    rw [seqAppend_empty_ids, List.length_map]
  · intro fs
    rw [seqAppend_empty_ids, List.length_map]
    refine List.Nodup.map ?_ (List.nodup_range fs.length)
    intro a b hab
    simp only [Except.ok.injEq, JsValue.number.injEq, JsNum.val.injEq] at hab
    omega

/-- Witness for C1 at a concrete input: a store holding one record, then
the Ana example appended to the empty store. -/
theorem claim_C1_append_ids_witness :
    (createUser ⟨"x", some (.arr [.null])⟩ (fieldsObj ⟨"Ana", "ana@x.com", "1 Rd", "555"⟩)).1 =
      .ok (.number (.val 2 0)) := by
  have h := claim_C1_append_ids.1 ⟨"x", some (.arr [.null])⟩ ⟨"x", some (.arr [.null])⟩
    (fieldsObj ⟨"Ana", "ana@x.com", "1 Rd", "555"⟩) [.null] rfl
  simpa using h

theorem mkRecord_fields (idv : JsValue) (f : UserFields) :
    mkRecord idv (fieldsObj f) =
      .obj [("id", idv), ("name", .str f.name), ("email", .str f.email),
            ("address", .str f.address), ("phone", .str f.phone)] := rfl

theorem findLoop_append_none (p : JsValue → Except JsError Bool) (xs ys : List JsValue)
    (h : ∀ u ∈ xs, p u = .ok false) :
    findLoop p (xs ++ ys) = findLoop p ys := by
  induction xs with
  | nil => rfl
  | cons u xs ih =>
    have hu := h u (List.mem_cons_self u xs)
    simp only [List.cons_append, findLoop, hu]
    exact ih (fun v hv => h v (List.mem_cons_of_mem u hv))

theorem objLookup_head (k : String) (v : JsValue) (rest : List (String × JsValue)) :
    objLookup ((k, v) :: rest) k = v := by
  simp [objLookup, List.find?]

theorem recordPred_eval (sId : String) (idv : JsValue) (rest : List (String × JsValue)) :
    ((jsGetField (.obj (("id", idv) :: rest)) "id").map
        (fun w => jsEqToNumber w (toNumber sId))) =
      .ok (jsEqToNumber idv (toNumber sId)) := by
  simp [jsGetField, objLookup_head, Except.map]

theorem jsNumEq_self (m : ℤ) (k : ℕ) : jsNumEq (.val m k) (.val m k) = true := by
  simp [jsNumEq]

/-- C2: appending a validated field set to a store of `n` records (none of
which already carries id `n + 1`) returns id `n + 1`, and the
`user-details` lookup of that id on the resulting store returns exactly
the appended fields plus that id. -/
theorem claim_C2_find_after_append
    (file uri sId : String) (xs : List JsValue) (f : UserFields)
    (hIds : ∀ u ∈ xs, ∃ r : JsValue, jsGetField u "id" = .ok r ∧
        jsEqToNumber r (.val ((xs.length : ℤ) + 1) 0) = false)
    (hSid : toNumber sId = .val ((xs.length : ℤ) + 1) 0) :
    ∃ s' : StoreState,
      createUser ⟨file, some (.arr xs)⟩ (fieldsObj f) =
        (.ok (.number (.val ((xs.length : ℤ) + 1) 0)), s') ∧
      (userDetailsHandler uri sId s').1 =
        .ok ⟨uri, jsStringify (.obj
          [("id", .number (.val ((xs.length : ℤ) + 1) 0)),
           ("name", .str f.name), ("email", .str f.email),
           ("address", .str f.address), ("phone", .str f.phone)])⟩ := by
  refine ⟨_, createUser_cached file xs (fieldsObj f), ?_⟩
  have hpred : ∀ u ∈ xs,
      ((jsGetField u "id").map (fun w => jsEqToNumber w (toNumber sId))) = .ok false := by
    intro u hu
    obtain ⟨r, hr, hre⟩ := hIds u hu
    rw [hr, hSid]
    simp [Except.map, hre]
  have hstep : Except.map (fun w => jsEqToNumber w (toNumber sId))
      (jsGetField (JsValue.obj [("id", .number (.val ((xs.length : ℤ) + 1) 0)),
        ("name", .str f.name), ("email", .str f.email), ("address", .str f.address),
        ("phone", .str f.phone)]) "id") = .ok true := by
    rw [recordPred_eval, hSid]
    simp [jsEqToNumber, jsNumEq_self]
  simp only [userDetailsHandler, importUsers_cached, jsFindMethod]
  rw [findLoop_append_none _ _ _ hpred, mkRecord_fields]
  simp only [findLoop, hstep]

/-- Witness for C2: the spec's Ana example on the empty store. -/
theorem claim_C2_find_after_append_witness :
    ∃ s' : StoreState,
      createUser ⟨"[]", some (.arr [])⟩ (fieldsObj ⟨"Ana", "ana@x.com", "1 Rd", "555"⟩) =
        (.ok (.number (.val 1 0)), s') ∧
      (userDetailsHandler "users://1/details" "1" s').1 =
        .ok ⟨"users://1/details",
          some "\x7b\"id\":1,\"name\":\"Ana\",\"email\":\"ana@x.com\",\"address\":\"1 Rd\",\"phone\":\"555\"\x7d"⟩ := by
  obtain ⟨s', h1, h2⟩ := claim_C2_find_after_append "[]" "users://1/details" "1" []
    ⟨"Ana", "ana@x.com", "1 Rd", "555"⟩ (by intro u hu; cases hu) (by decide)
  refine ⟨s', ?_, ?_⟩
  · rw [h1]
    norm_num
  · rw [h2]
    rfl

/-- C4 (amended): backing-file content that fails to parse as JSON makes
the load fail in all three operations — the `Users` read, the
`user-details` lookup, and `createUser` — with a `SyntaxError`, and the
failed operation leaves the state (in particular the backing file)
unmodified.  Valid JSON that is not an array of well-formed records does
not generally fail: see the counterexample. -/
theorem claim_C4_corrupt_store
    (s : StoreState) (uri uid : String) (p : JsValue)
    (h0 : s.cache = none) (h1 : jsonParse s.file = none) :
    usersResourceHandler uri s = (.error .syntaxError, s) ∧
    userDetailsHandler uri uid s = (.error .syntaxError, s) ∧
    createUser s p = (.error .syntaxError, s) := by
  have h := importUsers_corrupt s h0 h1
  exact ⟨by simp [usersResourceHandler, h], by simp [userDetailsHandler, h],
    by simp [createUser, h]⟩

/-- Witness for C4 (amended) at a concrete corrupt backing file. -/
theorem claim_C4_corrupt_store_witness :
    usersResourceHandler "user://all" ⟨"oops", none⟩ =
      (.error .syntaxError, ⟨"oops", none⟩) ∧
    userDetailsHandler "user://all" "1" ⟨"oops", none⟩ =
      (.error .syntaxError, ⟨"oops", none⟩) ∧
    createUser ⟨"oops", none⟩ .null = (.error .syntaxError, ⟨"oops", none⟩) :=
  claim_C4_corrupt_store ⟨"oops", none⟩ "user://all" "1" .null rfl rfl

/-- Counterexample for C4 as stated: the backing-file content `{}` is
valid JSON but not an array of records, yet `loadAll` (the `Users`
resource handler) does not fail — it serves the object verbatim. -/
theorem claim_C4_counterexample :
    usersResourceHandler "user://all" ⟨"\x7b\x7d", none⟩ =
      (.ok ⟨"user://all", some "\x7b\x7d"⟩, ⟨"\x7b\x7d", some (.obj [])⟩) ∧
    ¬ ∃ e : JsError, (usersResourceHandler "user://all" ⟨"\x7b\x7d", none⟩).1 = .error e := by
  refine ⟨rfl, ?_⟩
  rintro ⟨e, he⟩
  rw [show (usersResourceHandler "user://all" ⟨"\x7b\x7d", none⟩).1 =
      .ok ⟨"user://all", some "\x7b\x7d"⟩ from rfl] at he
  simp at he

/-- C5: on the empty store, looking up the absent id 1 does not return
the "User not found" envelope — `Array.prototype.find` returns
`undefined`, the code's `user === null` check never fires, and the
handler instead returns a content block whose `text` is the `undefined`
result of `JSON.stringify(undefined)` (modelled as `none`), which differs
from the not-found envelope the code's dead branch would have produced. -/
theorem claim_C5_lookup_miss_behaviour :
    userDetailsHandler "users://1/details" "1" ⟨"[]", none⟩ =
      (.ok ⟨"users://1/details", none⟩, ⟨"[]", some (.arr [])⟩) ∧
    jsStringify (.obj [("error", .str "User not found")]) =
      some "\x7b\"error\":\"User not found\"\x7d" ∧
    (none : Option String) ≠ some "\x7b\"error\":\"User not found\"\x7d" :=
  ⟨rfl, rfl, by simp⟩

/-- C6 (amended): the two tool handlers catch every store failure and
return an envelope — `create-user` maps a `createUser` exception to the
"Failed to save user" envelope and `create-random-user` maps parse and
store exceptions to the "Failed to generate user data" envelope — but the
resource handlers have no handler-level catch, so a corrupt-store load
failure propagates out of both `Users` and `user-details`. -/
theorem claim_C6_handler_catching :
    (∀ (s : StoreState) (f : UserFields),
        (∃ idv s', createUser s (fieldsObj f) = (.ok idv, s') ∧
            createUserTool f s = (⟨"User " ++ jsToStr idv ++ " created successfully"⟩, s')) ∨
        (∃ e s', createUser s (fieldsObj f) = (.error e, s') ∧
            createUserTool f s = (⟨"Failed to save user"⟩, s'))) ∧
    (∀ (s s' : StoreState) (t : String) (v : JsValue) (e : JsError),
        jsonParse (stripFences t) = some v →
        createUser s v = (.error e, s') →
        createRandomUserTool (.text t) s = (⟨"Failed to generate user data"⟩, s')) ∧
    (∀ (s : StoreState) (uri uid : String),
        s.cache = none → jsonParse s.file = none →
        (usersResourceHandler uri s).1 = .error .syntaxError ∧
        (userDetailsHandler uri uid s).1 = .error .syntaxError) := by
  refine ⟨?_, ?_, ?_⟩
  · intro s f
    cases h : createUser s (fieldsObj f) with
    | mk r s' =>
      cases r with
      | ok idv => exact Or.inl ⟨idv, s', rfl, by simp [createUserTool, h]⟩
      | error e => exact Or.inr ⟨e, s', rfl, by simp [createUserTool, h]⟩
  · intro s s' t v e h1 h2
    simp [createRandomUserTool, h1, h2]
  · intro s uri uid h0 h1
    have h := importUsers_corrupt s h0 h1
    exact ⟨by simp [usersResourceHandler, h], by simp [userDetailsHandler, h]⟩

/-- Witness for C6 (amended) at concrete inputs: a corrupt-store read
escaping the resource handlers, and the random-user handler catching a
store failure on a non-array store. -/
theorem claim_C6_handler_catching_witness :
    ((usersResourceHandler "user://all" ⟨"bad", none⟩).1 = .error .syntaxError ∧
      (userDetailsHandler "user://all" "2" ⟨"bad", none⟩).1 = .error .syntaxError) ∧
    createRandomUserTool (.text "7") ⟨"null", none⟩ =
      (⟨"Failed to generate user data"⟩, ⟨"null", some .null⟩) :=
  ⟨claim_C6_handler_catching.2.2 ⟨"bad", none⟩ "user://all" "2" rfl rfl,
   claim_C6_handler_catching.2.1 ⟨"null", none⟩ ⟨"null", some .null⟩ "7"
     (.number (.val 7 0)) .typeError rfl rfl⟩

/-- Counterexample for C6 as stated: with a malformed backing file, the
`Users` resource handler does not convert the store failure to an
envelope — the exception escapes the handler. -/
theorem claim_C6_counterexample :
    usersResourceHandler "user://all" ⟨"not json", none⟩ =
      (.error .syntaxError, ⟨"not json", none⟩) ∧
    ¬ ∃ r : ResourceContent,
        (usersResourceHandler "user://all" ⟨"not json", none⟩).1 = .ok r := by
  refine ⟨rfl, ?_⟩
  rintro ⟨r, hr⟩
  rw [show (usersResourceHandler "user://all" ⟨"not json", none⟩).1 =
      .error .syntaxError from rfl] at hr
  simp at hr

/-- C7 (amended): `create-random-user` returns the failure envelope and
appends nothing when the collaborator's result is non-text or when the
fence-stripped text fails `JSON.parse`; but no shape validation happens
after the parse: any successfully parsed JSON value — of whatever shape —
is handed to `createUser`, and on an array-backed store the handler
reports success with the unvalidated value spread into the appended
record. -/
theorem claim_C7_generation_parsing :
    (∀ s : StoreState,
        createRandomUserTool .nonText s = (⟨"Failed to generate user data"⟩, s)) ∧
    (∀ (s : StoreState) (t : String), jsonParse (stripFences t) = none →
        createRandomUserTool (.text t) s = (⟨"Failed to generate user data"⟩, s)) ∧
    (∀ (file t : String) (xs : List JsValue) (v : JsValue),
        jsonParse (stripFences t) = some v →
        createRandomUserTool (.text t) ⟨file, some (.arr xs)⟩ =
          (⟨"User " ++ jsToStr (.number (.val ((xs.length : ℤ) + 1) 0)) ++
              " created successfully"⟩,
           ⟨jsStringifyPretty
              (.arr (xs ++ [mkRecord (.number (.val ((xs.length : ℤ) + 1) 0)) v])),
            some (.arr (xs ++ [mkRecord (.number (.val ((xs.length : ℤ) + 1) 0)) v]))⟩)) := by
  refine ⟨fun s => rfl, ?_, ?_⟩
  · intro s t h
    simp [createRandomUserTool, h]
  · intro file t xs v h
    simp [createRandomUserTool, h, createUser_cached]

/-- Witness for C7 (amended): unparseable text yields the failure
envelope; a parseable object with none of the record fields is appended
anyway. -/
theorem claim_C7_generation_parsing_witness :
    createRandomUserTool (.text "no fence json") ⟨"[]", some (.arr [])⟩ =
      (⟨"Failed to generate user data"⟩, ⟨"[]", some (.arr [])⟩) ∧
    createRandomUserTool (.text "\x7b\"age\": 3\x7d") ⟨"f", some (.arr [])⟩ =
      (⟨"User " ++ jsToStr (.number (.val 1 0)) ++ " created successfully"⟩,
       ⟨jsStringifyPretty (.arr [mkRecord (.number (.val 1 0))
          (.obj [("age", .number (.val 3 0))])]),
        some (.arr [mkRecord (.number (.val 1 0)) (.obj [("age", .number (.val 3 0))])])⟩) := by
  constructor
  · exact claim_C7_generation_parsing.2.1 ⟨"[]", some (.arr [])⟩ "no fence json" rfl
  · have h := claim_C7_generation_parsing.2.2 "f" "\x7b\"age\": 3\x7d" []
      (.obj [("age", .number (.val 3 0))]) rfl
    simpa using h

/-- Counterexample for C7 as stated: the collaborator text `{}` parses as
JSON but fails the UserRecord input shape, yet the handler returns the
success envelope (not a failure envelope) and appends the shapeless
record `{id: 1}` to the store. -/
theorem claim_C7_counterexample :
    createRandomUserTool (.text "\x7b\x7d") ⟨"[]", none⟩ =
      (⟨"User 1 created successfully"⟩,
       ⟨jsStringifyPretty (.arr [.obj [("id", .number (.val 1 0))]]),
        some (.arr [.obj [("id", .number (.val 1 0))]])⟩) ∧
    (⟨"User 1 created successfully"⟩ : ToolResponse) ≠ ⟨"Failed to generate user data"⟩ :=
  ⟨rfl, by decide⟩

/-- C8 (amended): only a read that finds the module cache empty parses
the backing file; once the cache is populated every later read returns
the cached value regardless of what the file now holds.  `createUser`
keeps cache and file in sync from inside the process by mutating the
cached array and rewriting the file in the same call. -/
theorem claim_C8_reads_cached :
    (∀ (s : StoreState) (v : JsValue), s.cache = some v → importUsers s = (.ok v, s)) ∧
    (∀ (s : StoreState) (v : JsValue), s.cache = none → jsonParse s.file = some v →
        importUsers s = (.ok v, ⟨s.file, some v⟩)) ∧
    (∀ (file : String) (xs : List JsValue) (p : JsValue),
        (createUser ⟨file, some (.arr xs)⟩ p).2 =
          ⟨jsStringifyPretty
             (.arr (xs ++ [mkRecord (.number (.val ((xs.length : ℤ) + 1) 0)) p])),
           some (.arr (xs ++ [mkRecord (.number (.val ((xs.length : ℤ) + 1) 0)) p]))⟩) := by
  refine ⟨?_, ?_, ?_⟩
  · intro s v h
    obtain ⟨file, cache⟩ := s
    simp only at h
    subst h
    rfl
  · intro s v h0 h1
    exact importUsers_fresh s v h0 h1
  · intro file xs p
    rw [createUser_cached]

/-- Witness for C8 (amended): a cached read ignoring the file, and a
fresh read parsing it. -/
theorem claim_C8_reads_cached_witness :
    importUsers ⟨"[1]", some (.arr [])⟩ = (.ok (.arr []), ⟨"[1]", some (.arr [])⟩) ∧
    importUsers ⟨"[]", none⟩ = (.ok (.arr []), ⟨"[]", some (.arr [])⟩) :=
  ⟨claim_C8_reads_cached.1 ⟨"[1]", some (.arr [])⟩ (.arr []) rfl,
   claim_C8_reads_cached.2.1 ⟨"[]", none⟩ (.arr []) rfl rfl⟩

/-- Counterexample for C8 as stated: after a first read caches the parse
of `[]`, a read performed when the backing file holds `[1]` still serves
`[]` — the result is not the serialization of the parse of the file's
current content, so reads are not fresh. -/
theorem claim_C8_counterexample :
    (usersResourceHandler "user://all" ⟨"[]", none⟩).2 = ⟨"[]", some (.arr [])⟩ ∧
    usersResourceHandler "user://all" ⟨"[1]", some (.arr [])⟩ =
      (.ok ⟨"user://all", some "[]"⟩, ⟨"[1]", some (.arr [])⟩) ∧
    jsonParse "[1]" = some (.arr [.number (.val 1 0)]) ∧
    jsStringify (.arr [.number (.val 1 0)]) = some "[1]" ∧
    (some "[]" : Option String) ≠ some "[1]" :=
  ⟨rfl, rfl, rfl, rfl, by simp⟩

theorem jsEqToNumber_nan (r : JsValue) : jsEqToNumber r .nan = false := by
  cases r with
  | number m => cases m <;> rfl
  | null => rfl
  | undefined => rfl
  | boolean b => rfl
  | str s => rfl
  | arr xs => rfl
  | obj fs => rfl

theorem findLoop_none (p : JsValue → Except JsError Bool) (xs : List JsValue)
    (h : ∀ u ∈ xs, p u = .ok false) : findLoop p xs = .ok .undefined := by
  have h2 := findLoop_append_none p xs [] h
  simpa using h2

/-- C9: the `user-details` lookup predicate matches a record with numeric
id exactly when `Number(userId)` equals that id as a number; a `NaN`
coercion (a non-numeric userId) matches no record, so the find yields
`undefined`; and numerically equivalent strings such as `"01"` and
`" 1 "` coerce to the number 1. -/
theorem claim_C9_lookup_by_number :
    (∀ (userId : String) (u : JsValue) (m : JsNum),
        jsGetField u "id" = .ok (.number m) →
        (((jsGetField u "id").map (fun w => jsEqToNumber w (toNumber userId))) = .ok true ↔
          jsNumEq m (toNumber userId) = true)) ∧
    (∀ (userId : String) (xs : List JsValue),
        toNumber userId = .nan →
        (∀ u ∈ xs, ∃ r, jsGetField u "id" = .ok r) →
        jsFindMethod (.arr xs)
          (fun u => (jsGetField u "id").map (fun w => jsEqToNumber w (toNumber userId))) =
          .ok .undefined) ∧
    toNumber "01" = .val 1 0 ∧ toNumber " 1 " = .val 1 0 := by
  refine ⟨?_, ?_, rfl, rfl⟩
  · intro userId u m h
    rw [h]
    simp [Except.map, jsEqToNumber]
  · intro userId xs hnan hids
    simp only [jsFindMethod]
    refine findLoop_none _ _ (fun u hu => ?_)
    obtain ⟨r, hr⟩ := hids u hu
    rw [hr]
    simp [Except.map, hnan, jsEqToNumber_nan]

/-- Witness for C9: the string `"01"` matches the record with id 1; the
non-numeric string `"abc"` matches nothing. -/
theorem claim_C9_lookup_by_number_witness :
    (((jsGetField (.obj [("id", .number (.val 1 0))]) "id").map
        (fun w => jsEqToNumber w (toNumber "01"))) = .ok true ↔
      jsNumEq (.val 1 0) (toNumber "01") = true) ∧
    jsFindMethod (.arr [.obj [("id", .number (.val 1 0))]])
      (fun u => (jsGetField u "id").map (fun w => jsEqToNumber w (toNumber "abc"))) =
      .ok .undefined :=
  ⟨claim_C9_lookup_by_number.1 "01" (.obj [("id", .number (.val 1 0))]) (.val 1 0) rfl,
   claim_C9_lookup_by_number.2.1 "abc" [.obj [("id", .number (.val 1 0))]] rfl
     (by
       intro u hu
       simp only [List.mem_singleton] at hu
       subst hu
       exact ⟨.number (.val 1 0), rfl⟩)⟩

/-! ## Fence stripping (C10) -/

theorem data_fence_json :
    "```json".data = ['\x60', '\x60', '\x60', 'j', 's', 'o', 'n'] := rfl

theorem data_fence : "```".data = ['\x60', '\x60', '\x60'] := rfl

theorem jsWs_backtick : jsWsChar '\x60' = false := by decide

theorem dropWhile_append_last (p : Char → Bool) (xs : List Char) (a : Char)
    (h : p a = false) :
    ∃ ys, List.dropWhile p (xs ++ [a]) = ys ++ [a] := by
  induction xs with
  | nil => exact ⟨[], by simp [List.dropWhile, h]⟩
  | cons x xs ih =>
    by_cases hx : p x = true
    · obtain ⟨ys, hy⟩ := ih
      exact ⟨ys, by simp [List.dropWhile_cons, hx, hy]⟩
    · exact ⟨x :: xs, by simp [List.dropWhile_cons, hx]⟩

theorem chTrim_backtick_head (l : List Char) :
    ∃ t, chTrim ('\x60' :: l) = '\x60' :: t := by
  unfold chTrim
  rw [List.dropWhile_cons]
  simp only [jsWs_backtick, Bool.false_eq_true, if_false]
  rw [List.reverse_cons]
  obtain ⟨ys, hy⟩ := dropWhile_append_last jsWsChar l.reverse '\x60' jsWs_backtick
  rw [hy, List.reverse_append]
  exact ⟨ys.reverse, by simp⟩

theorem chTrim_backtick_bounded (l : List Char) :
    chTrim ('\x60' :: (l ++ ['\x60'])) = '\x60' :: (l ++ ['\x60']) := by
  unfold chTrim
  rw [List.dropWhile_cons]
  simp only [jsWs_backtick, Bool.false_eq_true, if_false]
  rw [List.reverse_cons, List.reverse_append]
  simp only [List.reverse_singleton, List.singleton_append]
  rw [List.cons_append, List.dropWhile_cons]
  simp only [jsWs_backtick, Bool.false_eq_true, if_false]
  simp [List.reverse_append]

theorem chopLead_fence_json (R : List Char) :
    chopLead "```json".data
        ('\x60' :: '\x60' :: '\x60' :: 'j' :: 's' :: 'o' :: 'n' :: R) = R := by
  unfold chopLead
  rw [data_fence_json]
  simp [List.isPrefixOf]

theorem chopTail_fence (R : List Char) :
    chopTail "```".data (R ++ ['\x60', '\x60', '\x60']) = R := by
  unfold chopTail chopLead
  rw [data_fence]
  simp [List.reverse_append, List.isPrefixOf]

theorem json_prefix_append (bd : List Char)
    (h : List.isPrefixOf "json".data bd = false) :
    List.isPrefixOf "json".data (bd ++ ['\x60', '\x60', '\x60']) = false := by
  match bd with
  | [] => decide
  | [c1] => simp [List.isPrefixOf]
  | [c1, c2] => simp [List.isPrefixOf]
  | [c1, c2, c3] => simp [List.isPrefixOf]
  | c1 :: c2 :: c3 :: c4 :: rest =>
    simp only [List.isPrefixOf, List.cons_append] at h ⊢
    simpa using h

theorem parseVal_backtick (fuel : ℕ) (t : List Char) :
    parseVal (fuel + 1) ('\x60' :: t) = none := by
  have hws : skipJsonWs ('\x60' :: t) = '\x60' :: t := by
    simp [skipJsonWs, List.dropWhile_cons, jsonWsChar]
  simp [parseVal, hws, parseNumber, Char.isDigit]

theorem jsonParse_head_backtick (s : String) (t : List Char)
    (hs : s.data = '\x60' :: t) : jsonParse s = none := by
  unfold jsonParse
  rw [hs]
  have hlen : 3 * ('\x60' :: t).length + 3 = (3 * t.length + 5) + 1 := by
    simp [List.length_cons]
    ring
  rw [hlen, parseVal_backtick]

/-- C10: the fence stripping removes exactly a leading ```` ```json ````
prefix and a trailing ```` ``` ```` suffix after trimming: stripping a
```` ```json ````-fenced text yields the trimmed body, so a valid JSON
body parses; a plain ```` ``` ````-fenced body (no `json` tag) keeps its
leading fence, so the stripped text still begins with a backtick and
`JSON.parse` fails, which drives the handler to the failure envelope. -/
theorem claim_C10_fence_stripping :
    (∀ body : String, stripFences ("```json" ++ body ++ "```") = strTrim body) ∧
    (∀ (body : String) (v : JsValue), jsonParse (strTrim body) = some v →
        jsonParse (stripFences ("```json" ++ body ++ "```")) = some v) ∧
    (∀ body : String, List.isPrefixOf "json".data body.data = false →
        jsonParse (stripFences ("```" ++ body ++ "```")) = none) := by
  have hA : ∀ body : String, stripFences ("```json" ++ body ++ "```") = strTrim body := by
    intro body
    unfold stripFences strTrim
    have hdata : ("```json" ++ body ++ "```").data
        = '\x60' :: (('\x60' :: '\x60' :: 'j' :: 's' :: 'o' :: 'n' ::
            (body.data ++ ['\x60', '\x60'])) ++ ['\x60']) := by
      rw [String.data_append, String.data_append, data_fence_json, data_fence]
      simp
    rw [hdata, chTrim_backtick_bounded]
    have h2 : ('\x60' :: (('\x60' :: '\x60' :: 'j' :: 's' :: 'o' :: 'n' ::
          (body.data ++ ['\x60', '\x60'])) ++ ['\x60']))
        = '\x60' :: '\x60' :: '\x60' :: 'j' :: 's' :: 'o' :: 'n' ::
            (body.data ++ ['\x60', '\x60', '\x60']) := by
      simp
    rw [h2, chopLead_fence_json, chopTail_fence]
  refine ⟨hA, fun body v h => by rw [hA body]; exact h, ?_⟩
  intro body h
  unfold stripFences
  have hdata : ("```" ++ body ++ "```").data
      = '\x60' :: (('\x60' :: '\x60' :: (body.data ++ ['\x60', '\x60'])) ++ ['\x60']) := by
    rw [String.data_append, String.data_append, data_fence]
    simp
  rw [hdata, chTrim_backtick_bounded]
  have h2 : ('\x60' :: (('\x60' :: '\x60' :: (body.data ++ ['\x60', '\x60'])) ++ ['\x60']))
      = '\x60' :: '\x60' :: '\x60' :: (body.data ++ ['\x60', '\x60', '\x60']) := by
    simp
  rw [h2]
  have hp : List.isPrefixOf "```json".data
      ('\x60' :: '\x60' :: '\x60' :: (body.data ++ ['\x60', '\x60', '\x60'])) = false := by
    rw [data_fence_json]
    simp only [List.isPrefixOf, beq_self_eq_true, Bool.true_and]
    exact json_prefix_append body.data h
  have h3 : chopLead "```json".data
      ('\x60' :: '\x60' :: '\x60' :: (body.data ++ ['\x60', '\x60', '\x60']))
      = '\x60' :: '\x60' :: '\x60' :: (body.data ++ ['\x60', '\x60', '\x60']) := by
    simp [chopLead, hp]
  rw [h3]
  have h4 : ('\x60' :: '\x60' :: '\x60' :: (body.data ++ ['\x60', '\x60', '\x60']))
      = ('\x60' :: '\x60' :: '\x60' :: body.data) ++ ['\x60', '\x60', '\x60'] := by
    simp
  rw [h4, chopTail_fence]
  obtain ⟨t, ht⟩ := chTrim_backtick_head ('\x60' :: '\x60' :: body.data)
  exact jsonParse_head_backtick _ t ht

/-- Witness for C10: a ```` ```json ````-fenced object parses after
stripping; the same body behind a plain ```` ``` ```` fence does not. -/
theorem claim_C10_fence_stripping_witness :
    jsonParse (stripFences ("```json" ++ "\n\x7b\"name\":\"Bo\"\x7d\n" ++ "```")) =
      some (.obj [("name", .str "Bo")]) ∧
    jsonParse (stripFences ("```" ++ "\n\x7b\"name\":\"Bo\"\x7d\n" ++ "```")) = none :=
  ⟨claim_C10_fence_stripping.2.1 "\n\x7b\"name\":\"Bo\"\x7d\n" (.obj [("name", .str "Bo")]) rfl,
   claim_C10_fence_stripping.2.2 "\n\x7b\"name\":\"Bo\"\x7d\n" rfl⟩
